import Mathlib

/-!
Verification development for the `dialogue-runner` repository.

The definitions below are a shallow embedding of the TypeScript sources:
  * `src/types.ts`                — runtime event types and the runtime interface;
  * `src/dialogue-tree-runtime.ts`— the reference graph-walking runtime
                                    (`DialogueTreeRuntime`);
  * `src/variable-storage.ts`     — in-memory variable storage (a JS `Map`);
  * `src/line-provider.ts`        — `LineProvider.applySubstitutions` and
                                    `MapLineProvider.getLine`;
  * `src/command-dispatcher.ts`   — tokenizer, default dispatcher, `parseValue`;
  * `src/runner.ts`               — the `DialogueRunner` orchestrator.

JS `Map`s are modelled as insertion-ordered association lists, JS `Set`s as
duplicate-free insertion-ordered lists, thrown exceptions as `Except`, and
`async` (which carries no concurrency in this single-threaded library) is
erased.  JS numbers are modelled as exact rationals plus signed infinity;
`parseFloat` is modelled on the decimal-literal grammar it accepts.  The
orchestrator's step loop (`runUntilPause`) receives an explicit fuel
parameter; the loop of the composed system pauses after a bounded number of
iterations, so any sufficiently large fuel reproduces the JS behaviour, and
invariants are proved for every fuel.
-/

/-- `VariableValue = string | number | boolean` (src/types.ts).  A JS number
that `parseFloat` can produce is either a finite value (modelled exactly as a
rational) or a signed infinity. -/
inductive JsNumber
  | finite (val : ℚ)
  | infinity (neg : Bool)
  deriving DecidableEq, Repr

/-- `VariableValue` from src/types.ts / src/variable-storage.ts. -/
inductive VariableValue
  | str (s : String)
  | num (n : JsNumber)
  | boolean (b : Bool)
  deriving DecidableEq, Repr

/-- `OptionInfo` from src/types.ts. -/
structure OptionInfo where
  id : Nat
  lineId : String
  enabled : Bool
  destinationNode : Option String
  deriving DecidableEq, Repr

/-- `RuntimeEvent` from src/types.ts: the discriminated union of events a
runtime can emit. -/
inductive RuntimeEvent
  | line (lineId : String) (substitutions : List String)
  | options (options : List OptionInfo)
  | command (text : String)
  | node_start (nodeName : String)
  | node_complete (nodeName : String)
  | dialogue_complete
  | prepare_for_lines (lineIds : List String)
  deriving DecidableEq, Repr

/-- `PlayerChoice` from src/dialogue-tree-runtime.ts. -/
structure PlayerChoice where
  id : String
  text : String
  nextNodeId : Option String
  lineId : Option String
  enabled : Option Bool
  deriving DecidableEq, Repr

/-- `DialogueNode` from src/dialogue-tree-runtime.ts: an NPC node or a player
choice node.  (`speaker` and `metadata` are carried only for completeness.) -/
inductive DialogueNode
  | npc (id : String) (speaker : Option String) (content : String)
      (lineId : Option String) (substitutions : Option (List String))
      (nextNodeId : Option String)
  | player (id : String) (choices : List PlayerChoice)
  deriving DecidableEq, Repr

/-- The node id stored on either variant. -/
def DialogueNode.nodeId : DialogueNode → String
  | .npc i _ _ _ _ _ => i
  | .player i _ => i

/-- `DialogueTree` from src/dialogue-tree-runtime.ts; `nodes` is a JS record,
modelled as an association list keyed by node id. -/
structure DialogueTree where
  id : String
  title : Option String
  startNodeId : String
  nodes : List (String × DialogueNode)
  deriving DecidableEq, Repr

/-- JS `Map.get` / record lookup: first binding for the key, if any. -/
def jsMapGet {α : Type} (m : List (String × α)) (key : String) : Option α :=
  match m with
  | [] => none
  | (k, v) :: rest => if k = key then some v else jsMapGet rest key

/-- JS `Map.set`: replace the value in place (keeping insertion order) when
the key is present, otherwise append a new binding. -/
def jsMapSet {α : Type} (m : List (String × α)) (key : String) (value : α) :
    List (String × α) :=
  match m with
  | [] => [(key, value)]
  | (k, v) :: rest =>
      if k = key then (key, value) :: rest else (k, v) :: jsMapSet rest key value

/-- JS `Set.add` on an insertion-ordered duplicate-free list. -/
def jsSetAdd (s : List String) (x : String) : List String :=
  if x ∈ s then s else s ++ [x]

/-- `OptionsCache` from src/dialogue-tree-runtime.ts. -/
structure OptionsCache where
  choices : List PlayerChoice
  nodeId : String
  deriving DecidableEq, Repr

/-- The mutable state of a `DialogueTreeRuntime` instance
(src/dialogue-tree-runtime.ts, fields at lines 59–67). -/
structure DialogueTreeRuntime where
  tree : DialogueTree
  currentNodeId : Option String
  isComplete : Bool
  waitingForOption : Bool
  pendingEvents : List RuntimeEvent
  pendingNextNodeId : Option String
  startedNodes : List String
  vars : List (String × VariableValue)
  optionCache : Option OptionsCache
  deriving DecidableEq, Repr

/-- The `DialogueTreeRuntime` constructor. -/
def rtInit (tree : DialogueTree) : DialogueTreeRuntime :=
  { tree := tree
    currentNodeId := some tree.startNodeId
    isComplete := false
    waitingForOption := false
    pendingEvents := []
    pendingNextNodeId := none
    startedNodes := []
    vars := []
    optionCache := none }

/-- JS truthiness fallback `a || b` for strings: `a` unless it is empty. -/
def jsOrString (a b : String) : String := if a = "" then b else a

/-- JS `x.lineId || fallback` where `lineId : string | undefined`:
`undefined` and the empty string both fall through. -/
def jsOrOptString (a : Option String) (b : String) : String :=
  match a with
  | none => b
  | some s => jsOrString s b

/-- Append a `dialogue_complete` event to the pending buffer. -/
def pushDialogueComplete (s : DialogueTreeRuntime) : DialogueTreeRuntime :=
  { s with pendingEvents := s.pendingEvents ++ [RuntimeEvent.dialogue_complete] }

/-- `DialogueTreeRuntime.populateEventsForCurrentNode`
(src/dialogue-tree-runtime.ts lines 166–220).  Note the JS falsiness check
`if (!this.currentNodeId)`: both `null` and the empty string take the
early `dialogue_complete` branch without setting `isComplete`. -/
def populateEventsForCurrentNode (s : DialogueTreeRuntime) : DialogueTreeRuntime :=
  if s.isComplete then s
  else
    match s.currentNodeId with
    | none => pushDialogueComplete s
    | some cid =>
        if cid = "" then pushDialogueComplete s
        else
          match jsMapGet s.tree.nodes cid with
          | none => { pushDialogueComplete s with isComplete := true }
          | some node =>
              if node.nodeId ∉ s.startedNodes then
                { s with
                    startedNodes := s.startedNodes ++ [node.nodeId]
                    pendingEvents :=
                      s.pendingEvents ++ [RuntimeEvent.node_start node.nodeId] }
              else
                match node with
                | .npc nid _ _ lineId substitutions nextNodeId =>
                    let lid := jsOrOptString lineId nid
                    let subs := substitutions.getD []
                    { s with
                        pendingNextNodeId := nextNodeId
                        pendingEvents := s.pendingEvents ++
                          [RuntimeEvent.prepare_for_lines [lid],
                           RuntimeEvent.line lid subs,
                           RuntimeEvent.node_complete nid] }
                | .player nid choices =>
                    let opts : List OptionInfo := choices.enum.map fun p =>
                      { id := p.1
                        lineId := jsOrOptString p.2.lineId p.2.id
                        enabled := p.2.enabled.getD true
                        destinationNode := p.2.nextNodeId }
                    { s with
                        pendingEvents := s.pendingEvents ++
                          [RuntimeEvent.prepare_for_lines (opts.map (·.lineId)),
                           RuntimeEvent.options opts]
                        optionCache := some { choices := choices, nodeId := nid } }

/-- The state updates `DialogueTreeRuntime.continue` applies after shifting an
event off the pending buffer (src/dialogue-tree-runtime.ts lines 104–115). -/
def rtAfterShift (e : RuntimeEvent) (s : DialogueTreeRuntime) : DialogueTreeRuntime :=
  let s1 := match e with
    | .options _ => { s with waitingForOption := true }
    | _ => s
  let s2 := match e with
    | .node_complete _ =>
        { s1 with currentNodeId := s1.pendingNextNodeId, pendingNextNodeId := none }
    | _ => s1
  match e with
  | .dialogue_complete => { s2 with isComplete := true }
  | _ => s2

/-- `DialogueTreeRuntime.continue` (src/dialogue-tree-runtime.ts lines 90–118):
returns the next event (or `none`) together with the successor state. -/
def rtContinue (s : DialogueTreeRuntime) :
    Option RuntimeEvent × DialogueTreeRuntime :=
  if s.isComplete = true ∨ s.waitingForOption = true then (none, s)
  else
    let s1 := if s.pendingEvents.isEmpty then populateEventsForCurrentNode s else s
    match s1.pendingEvents with
    | [] => (none, s1)
    | e :: rest => (some e, rtAfterShift e { s1 with pendingEvents := rest })

/-- `DialogueTreeRuntime.setNode` (src/dialogue-tree-runtime.ts lines 82–88).
It does not touch `isComplete`, `startedNodes` or `variables`. -/
def rtSetNode (nodeName : String) (s : DialogueTreeRuntime) : DialogueTreeRuntime :=
  { s with
      currentNodeId := some nodeName
      waitingForOption := false
      pendingEvents := []
      pendingNextNodeId := none
      optionCache := none }

/-- `DialogueTreeRuntime.setSelectedOption` (src/dialogue-tree-runtime.ts
lines 120–134); the two `throw` sites become `Except.error`. -/
def rtSetSelectedOption (optionId : Nat) (s : DialogueTreeRuntime) :
    Except String DialogueTreeRuntime :=
  match s.optionCache with
  | none => Except.error "Not currently waiting for an option"
  | some cache =>
      if s.waitingForOption = false then
        Except.error "Not currently waiting for an option"
      else
        match cache.choices[optionId]? with
        | none => Except.error ("Invalid option id " ++ toString optionId)
        | some choice =>
            Except.ok
              { s with
                  waitingForOption := false
                  pendingNextNodeId := choice.nextNodeId
                  pendingEvents :=
                    s.pendingEvents ++ [RuntimeEvent.node_complete cache.nodeId]
                  optionCache := none }

/-- `setSelectedOption` as a total transition: a thrown error leaves the
runtime state unchanged (the JS method throws before any mutation). -/
def rtSelectTotal (optionId : Nat) (s : DialogueTreeRuntime) : DialogueTreeRuntime :=
  match rtSetSelectedOption optionId s with
  | .ok s' => s'
  | .error _ => s

/-- `DialogueTreeRuntime.getVariable`. -/
def rtGetVariable (name : String) (s : DialogueTreeRuntime) : Option VariableValue :=
  jsMapGet s.vars name

/-- `DialogueTreeRuntime.setVariable`. -/
def rtSetVariable (name : String) (value : VariableValue)
    (s : DialogueTreeRuntime) : DialogueTreeRuntime :=
  { s with vars := jsMapSet s.vars name value }

/-- `DialogueTreeRuntime.getVariableNames`. -/
def rtGetVariableNames (s : DialogueTreeRuntime) : List String :=
  s.vars.map (·.1)

/-- `DialogueTreeRuntime.reset` (src/dialogue-tree-runtime.ts lines 156–164).
The source clears position, flags, buffers, the visited-node set and the
option cache — but never touches `variables`. -/
def rtReset (s : DialogueTreeRuntime) : DialogueTreeRuntime :=
  { s with
      currentNodeId := some s.tree.startNodeId
      waitingForOption := false
      isComplete := false
      pendingEvents := []
      pendingNextNodeId := none
      startedNodes := []
      optionCache := none }

/-- `DialogueTreeRuntime.loadProgram` modulo JSON decoding: the parsed tree is
taken as the argument.  Assigns the new tree, resets, and repositions at the
new start node. -/
def rtLoadProgram (parsed : DialogueTree) (s : DialogueTreeRuntime) :
    DialogueTreeRuntime :=
  let s1 := rtReset { s with tree := parsed }
  { s1 with currentNodeId := some parsed.startNodeId }

/-- Collect the results of `n` successive `continue()` calls. -/
def rtSteps : Nat → DialogueTreeRuntime → List (Option RuntimeEvent)
  | 0, _ => []
  | n + 1, s =>
      match rtContinue s with
      | (e, s') => e :: rtSteps n s'

/-- Runtime-level operations other than `reset`/`loadProgram`, used to state
that completion is sticky across them. -/
inductive RtOp
  | step
  | setNode (nodeName : String)
  | selectOption (optionId : Nat)
  deriving DecidableEq, Repr

/-- Apply one runtime operation (a thrown `setSelectedOption` leaves the state
unchanged, as in the source). -/
def applyRtOp (op : RtOp) (s : DialogueTreeRuntime) : DialogueTreeRuntime :=
  match op with
  | .step => (rtContinue s).2
  | .setNode n => rtSetNode n s
  | .selectOption i => rtSelectTotal i s

/-- Apply a sequence of runtime operations in order. -/
def applyRtOps (ops : List RtOp) (s : DialogueTreeRuntime) : DialogueTreeRuntime :=
  ops.foldl (fun s op => applyRtOp op s) s

/-- The double-quote character (JS `'"'`). -/
def doubleQuoteChar : Char := Char.ofNat 34

/-- The single-quote character (JS `"'"`). -/
def singleQuoteChar : Char := Char.ofNat 39

/-- The backquote character (code 96). -/
def backquoteChar : Char := Char.ofNat 96

/-- ECMAScript `GetSubstitution` for a string replacement: `$$` inserts `$`,
`$&` the matched substring, `$` + backquote the portion of the subject before
the match, `$'` the portion after it.  With a string search pattern there are
no capture groups and no named captures, so `$n`/`$<` (and any other `$`
sequence) are literal: the model emits the `$` and the following character
(itself not a `$`, so never the start of an escape) literally, which
produces the same text. -/
def getSubstitution (matched before after : List Char) : List Char → List Char
  | [] => []
  | c :: rest =>
      if c = '$' then
        match rest with
        | [] => ['$']
        | c2 :: rest2 =>
            if c2 = '$' then '$' :: getSubstitution matched before after rest2
            else if c2 = '&' then
              matched ++ getSubstitution matched before after rest2
            else if c2 = backquoteChar then
              before ++ getSubstitution matched before after rest2
            else if c2 = singleQuoteChar then
              after ++ getSubstitution matched before after rest2
            else '$' :: c2 :: getSubstitution matched before after rest2
      else c :: getSubstitution matched before after rest

/-- Index of the first occurrence of `pat` in `s` (character lists), like JS
`String.indexOf`; the empty pattern matches at 0. -/
def firstIndexOfList (pat : List Char) : List Char → Option Nat
  | [] => if pat.isPrefixOf ([] : List Char) then some 0 else none
  | c :: rest =>
      if pat.isPrefixOf (c :: rest) then some 0
      else (firstIndexOfList pat rest).map (· + 1)

/-- JS `String.prototype.replace` with a string pattern: splice at the first
occurrence only, inserting `GetSubstitution` of the replacement; the portions
of the subject before and after the match are kept verbatim. -/
def listReplaceFirst (pat sub : List Char) (s : List Char) : List Char :=
  match firstIndexOfList pat s with
  | none => s
  | some i =>
      s.take i ++
        getSubstitution pat (s.take i) (s.drop (i + pat.length)) sub ++
        s.drop (i + pat.length)

/-- `replace` lifted to `String`. -/
def replaceFirstStr (s pat sub : String) : String :=
  ⟨listReplaceFirst pat.data sub.data s.data⟩

/-- `LineProvider.applySubstitutions` (src/line-provider.ts lines 61–67):
for each substitution, replace the first occurrence of its positional
placeholder. -/
def applySubstitutions (text : String) (substitutions : List String) : String :=
  substitutions.enum.foldl
    (fun result p => replaceFirstStr result ("\x7b" ++ toString p.1 ++ "\x7d") p.2)
    text

/-- `LineEntry` from src/line-provider.ts. -/
structure LineEntry where
  id : String
  text : String
  metadata : Option (List (String × String))
  deriving DecidableEq, Repr

/-- `LocalizedLine` from src/line-provider.ts. -/
structure LocalizedLine where
  text : String
  lineId : String
  substitutions : List String
  metadata : Option (List (String × String))
  deriving DecidableEq, Repr

/-- `MapLineProvider.getLine` (src/line-provider.ts lines 92–104), with the
provider's line table passed explicitly. -/
def mapGetLine (lines : List (String × LineEntry)) (lineId : String)
    (substitutions : List String) : Option LocalizedLine :=
  match jsMapGet lines lineId with
  | none => none
  | some entry =>
      some
        { text := applySubstitutions entry.text substitutions
          lineId := lineId
          substitutions := substitutions
          metadata := entry.metadata }

/-- One step of `CommandDispatcher.tokenize`'s character loop
(src/command-dispatcher.ts lines 98–128).  `quoteChar` is `none` outside
quotes (JS uses the empty string, which never equals a character). -/
def tokenizeAux : List Char → List String → String → Bool → Option Char →
    List String
  | [], tokens, current, _, _ =>
      if current = "" then tokens else tokens ++ [current]
  | c :: rest, tokens, current, inQuotes, quoteChar =>
      if (c = doubleQuoteChar ∨ c = singleQuoteChar) ∧ inQuotes = false then
        tokenizeAux rest tokens current true (some c)
      else if some c = quoteChar ∧ inQuotes = true then
        tokenizeAux rest tokens current false none
      else if c = ' ' ∧ inQuotes = false then
        if current = "" then tokenizeAux rest tokens current inQuotes quoteChar
        else tokenizeAux rest (tokens ++ [current]) "" inQuotes quoteChar
      else tokenizeAux rest tokens (current.push c) inQuotes quoteChar

/-- `CommandDispatcher.tokenize`: split on spaces, respecting quotes (the
quote characters themselves are dropped). -/
def tokenize (text : String) : List String :=
  tokenizeAux text.data [] "" false none

/-- `CommandDispatcher.parseCommand` (src/command-dispatcher.ts lines 81–93). -/
def parseCommand (text : String) : Option (String × List String) :=
  let trimmed := text.trim
  if trimmed = "" then none
  else
    match tokenize trimmed with
    | [] => none
    | cmd :: args => some (cmd, args)

/-- Digits to a natural number. -/
def digitsToNat (ds : List Char) : Nat :=
  ds.foldl (fun acc c => acc * 10 + (c.toNat - 48)) 0

/-- `10 ^ e` over the rationals for a signed exponent. -/
def tenPow (e : Int) : ℚ :=
  if 0 ≤ e then (10 : ℚ) ^ e.toNat else 1 / (10 : ℚ) ^ (-e).toNat

/-- Optional sign at the front of a numeric literal: returns (negative, rest). -/
def parseSign : List Char → Bool × List Char
  | '-' :: rest => (true, rest)
  | '+' :: rest => (false, rest)
  | cs => (false, cs)

/-- Exponent part of a numeric literal (`e`/`E`, optional sign, digits); the
exponent is consumed only when at least one digit follows. -/
def parseExponent (cs : List Char) : Int :=
  match cs with
  | c :: rest =>
      if c = 'e' ∨ c = 'E' then
        let (eneg, rest1) := parseSign rest
        let eds := rest1.takeWhile Char.isDigit
        if eds = [] then 0
        else if eneg then -(digitsToNat eds : Int) else (digitsToNat eds : Int)
      else 0
  | [] => 0

/-- JS `parseFloat`: skip leading whitespace, then parse the longest prefix
matching `[+-]? (Infinity | digits [. digits?] | . digits) ([eE][+-]?digits)?`;
`none` models `NaN`.  Finite values are exact rationals (double rounding and
overflow to infinity on huge exponents are not modelled). -/
def jsParseFloat (s : String) : Option JsNumber :=
  let cs := s.data.dropWhile Char.isWhitespace
  let (neg, cs1) := parseSign cs
  if "Infinity".data.isPrefixOf cs1 then some (JsNumber.infinity neg)
  else
    let intDs := cs1.takeWhile Char.isDigit
    let cs2 := cs1.dropWhile Char.isDigit
    let hasDot := cs2.head? = some '.'
    let fracDs := if hasDot then (cs2.drop 1).takeWhile Char.isDigit else []
    let cs3 := if hasDot then (cs2.drop 1).dropWhile Char.isDigit else cs2
    if intDs = [] ∧ fracDs = [] then none
    else
      let evalue := parseExponent cs3
      let base : ℚ :=
        (digitsToNat intDs : ℚ) +
          (digitsToNat fracDs : ℚ) / (10 : ℚ) ^ fracDs.length
      let q := base * tenPow evalue
      some (JsNumber.finite (if neg then -q else q))

/-- JS `String.prototype.startsWith`, on the character data. -/
def jsStartsWith (s pre : String) : Bool := pre.data.isPrefixOf s.data

/-- JS `String.prototype.endsWith`, on the character data. -/
def jsEndsWith (s post : String) : Bool := post.data.isSuffixOf s.data

/-- JS `valueStr.slice(1, -1)`: drop the first and last character. -/
def stripQuotes (s : String) : String := ⟨(s.data.drop 1).dropLast⟩

/-- The quotedness test at the top of `parseValue`
(src/command-dispatcher.ts lines 180–182). -/
def isQuotedValue (valueStr : String) : Bool :=
  (jsStartsWith valueStr (String.singleton doubleQuoteChar) ∧
     jsEndsWith valueStr (String.singleton doubleQuoteChar)) ∨
  (jsStartsWith valueStr (String.singleton singleQuoteChar) ∧
     jsEndsWith valueStr (String.singleton singleQuoteChar))

/-- `parseValue` (src/command-dispatcher.ts lines 178–195): strip matching
quotes, else recognize `true`/`false`, else a number via `parseFloat`, else
the bare string. -/
def parseValue (valueStr : String) : VariableValue :=
  if isQuotedValue valueStr then
    VariableValue.str (stripQuotes valueStr)
  else if valueStr = "true" then VariableValue.boolean true
  else if valueStr = "false" then VariableValue.boolean false
  else
    match jsParseFloat valueStr with
    | some n => VariableValue.num n
    | none => VariableValue.str valueStr

/-- `value.replace(/^\$/, '')`: strip one leading dollar sign. -/
def stripDollar (s : String) : String :=
  if jsStartsWith s "$" then ⟨s.data.drop 1⟩ else s

/-- `CommandContext` (src/command-dispatcher.ts lines 7–16) over an explicit
state type; `continue` is renamed `continueFn` (`continue` is reserved in
Lean). -/
structure CommandContext (σ : Type) where
  getVariable : String → σ → Option VariableValue
  setVariable : String → VariableValue → σ → σ
  stopFn : σ → σ
  continueFn : σ → σ

/-- The built-in `wait` handler (src/command-dispatcher.ts lines 152–158).
The asynchronous delay has no effect on dialogue state; the handler ends with
`context.continue()`. -/
def waitHandler {σ : Type} (ctx : CommandContext σ) (args : List String)
    (s : σ) : σ :=
  let _secs := jsParseFloat (jsOrString (args.headD "") "1")
  ctx.continueFn s

/-- The built-in `stop` handler (src/command-dispatcher.ts lines 161–163). -/
def stopHandler {σ : Type} (ctx : CommandContext σ) (_args : List String)
    (s : σ) : σ :=
  ctx.stopFn s

/-- The built-in `set` handler (src/command-dispatcher.ts lines 166–173):
with at least two arguments, strip a leading `$` from the first, parse the
rest (joined by spaces) with `parseValue`, and write through the context;
always finish with `context.continue()`. -/
def setHandler {σ : Type} (ctx : CommandContext σ) (args : List String)
    (s : σ) : σ :=
  match args with
  | varArg :: rest =>
      if rest.isEmpty then ctx.continueFn s
      else
        ctx.continueFn
          (ctx.setVariable (stripDollar varArg)
            (parseValue (String.intercalate " " rest)) s)
  | [] => ctx.continueFn s

/-- `dispatch` on the dispatcher built by `createDefaultDispatcher`
(src/command-dispatcher.ts lines 58–76 and 148–176): parse the command line,
look the verb up case-insensitively among `wait`/`stop`/`set`, run the
handler; there is no default handler.  Returns the new state and the
`handled` flag. -/
def defaultDispatch {σ : Type} (ctx : CommandContext σ) (commandText : String)
    (s : σ) : σ × Bool :=
  match parseCommand commandText with
  | none => (s, false)
  | some (cmd, args) =>
      let c := cmd.toLower
      if c = "wait" then (waitHandler ctx args s, true)
      else if c = "stop" then (stopHandler ctx args s, true)
      else if c = "set" then (setHandler ctx args s, true)
      else (s, false)

/-- `RunnerState` (src/runner.ts lines 21–32). -/
structure RunnerState where
  currentNode : Option String
  isRunning : Bool
  isWaitingForOption : Bool
  isComplete : Bool
  lastEvent : Option RuntimeEvent
  deriving DecidableEq, Repr

/-- The options carried by a `RunnerOptionsEvent` (src/runner.ts lines 51–60). -/
structure RunnerOption where
  id : Nat
  lineId : String
  text : String
  enabled : Bool
  destinationNode : Option String
  deriving DecidableEq, Repr

/-- `RunnerEvent` (src/runner.ts lines 82–88): the high-level events the
orchestrator emits to subscribers. -/
inductive RunnerEvent
  | line (lineId : String) (text : String) (substitutions : List String)
      (metadata : Option (List (String × String)))
  | options (options : List RunnerOption)
  | command (command : String) (handled : Bool)
  | nodeStart (nodeName : String)
  | nodeComplete (nodeName : String)
  | dialogueComplete
  | error (message : String)
  deriving DecidableEq, Repr

/-- A `DialogueRunner` composed with the reference `DialogueTreeRuntime`, a
`MapLineProvider` (its line table), the default command dispatcher, and an
`InMemoryVariableStorage` (src/runner.ts lines 97–117). -/
structure DialogueRunner where
  runtime : DialogueTreeRuntime
  lines : List (String × LineEntry)
  storage : List (String × VariableValue)
  state : RunnerState
  stopped : Bool
  deriving DecidableEq, Repr

/-- The `DialogueRunner` constructor with a fresh reference runtime. -/
def runnerInit (tree : DialogueTree) (lines : List (String × LineEntry))
    (storage : List (String × VariableValue)) : DialogueRunner :=
  { runtime := rtInit tree
    lines := lines
    storage := storage
    state :=
      { currentNode := none
        isRunning := false
        isWaitingForOption := false
        isComplete := false
        lastEvent := none }
    stopped := false }

/-- `DialogueRunner.getVariable` (src/runner.ts lines 217–219): durable
storage first, falling back to the runtime's working value. -/
def runnerGetVariable (name : String) (r : DialogueRunner) :
    Option VariableValue :=
  match jsMapGet r.storage name with
  | some v => some v
  | none => rtGetVariable name r.runtime

/-- `DialogueRunner.setVariable` (src/runner.ts lines 224–227): write durable
storage first, then the runtime working set. -/
def runnerSetVariable (name : String) (value : VariableValue)
    (r : DialogueRunner) : DialogueRunner :=
  let r1 := { r with storage := jsMapSet r.storage name value }
  { r1 with runtime := rtSetVariable name value r1.runtime }

/-- `DialogueRunner.stop` (src/runner.ts lines 170–174): set the stop flag,
mark not running and complete.  It does not clear `isWaitingForOption`. -/
def runnerStop (r : DialogueRunner) : DialogueRunner :=
  { r with
      stopped := true
      state := { r.state with isRunning := false, isComplete := true } }

/-- The `CommandContext` the orchestrator hands to command handlers
(src/runner.ts lines 322–328): variables go through the runner's accessors,
`stop` is the runner's `stop`, `continue` is a no-op. -/
def runnerContext : CommandContext DialogueRunner :=
  { getVariable := runnerGetVariable
    setVariable := runnerSetVariable
    stopFn := runnerStop
    continueFn := id }

/-- The placeholder text for an unresolvable line id. -/
def missingText (lineId : String) : String := "[Missing: " ++ lineId ++ "]"

/-- JS `localizedLine?.text || placeholder`: the placeholder is used both when
no line was found and when the resolved text is the empty string. -/
def lineTextOrMissing (ll : Option LocalizedLine) (lineId : String) : String :=
  match ll with
  | none => missingText lineId
  | some l => jsOrString l.text (missingText lineId)

/-- `DialogueRunner.handleLine` (src/runner.ts lines 289–301): resolve the
line, emit a `line` event, pause.  Returns (state, shouldPause, emitted). -/
def handleLine (r : DialogueRunner) (lineId : String)
    (substitutions : List String) : DialogueRunner × Bool × List RunnerEvent :=
  let ll := mapGetLine r.lines lineId substitutions
  (r, true,
    [RunnerEvent.line lineId (lineTextOrMissing ll lineId) substitutions
      (ll.bind (·.metadata))])

/-- `DialogueRunner.handleOptions` (src/runner.ts lines 303–320): set the
waiting flag, resolve each option's text, emit an `options` event, pause. -/
def handleOptions (r : DialogueRunner) (opts : List OptionInfo) :
    DialogueRunner × Bool × List RunnerEvent :=
  let r1 := { r with state := { r.state with isWaitingForOption := true } }
  let mapped := opts.map fun opt =>
    let ll := mapGetLine r1.lines opt.lineId []
    { id := opt.id
      lineId := opt.lineId
      text := lineTextOrMissing ll opt.lineId
      enabled := opt.enabled
      destinationNode := opt.destinationNode : RunnerOption }
  (r1, true, [RunnerEvent.options mapped])

/-- `DialogueRunner.handleCommand` (src/runner.ts lines 322–340): dispatch
through the default dispatcher with the runner-bound context, emit a
`command` event, do not pause. -/
def handleCommand (r : DialogueRunner) (text : String) :
    DialogueRunner × Bool × List RunnerEvent :=
  match defaultDispatch runnerContext text r with
  | (r1, handled) => (r1, false, [RunnerEvent.command text handled])

/-- `DialogueRunner.handleRuntimeEvent` (src/runner.ts lines 264–287).
`prepare_for_lines` goes to `MapLineProvider.prepareLines`, a no-op. -/
def handleRuntimeEvent (e : RuntimeEvent) (r : DialogueRunner) :
    DialogueRunner × Bool × List RunnerEvent :=
  match e with
  | .line lid subs => handleLine r lid subs
  | .options opts => handleOptions r opts
  | .command t => handleCommand r t
  | .node_start n =>
      ({ r with state := { r.state with currentNode := some n } }, false,
        [RunnerEvent.nodeStart n])
  | .node_complete n => (r, false, [RunnerEvent.nodeComplete n])
  | .dialogue_complete => (r, true, [])
  | .prepare_for_lines _ => (r, false, [])

/-- The `while` loop of `DialogueRunner.runUntilPause` (src/runner.ts lines
246–255) with explicit fuel; the loop stops when `stop()` was requested, the
runtime reports completion, the runtime yields no event, or a handler asks to
pause. -/
def runLoop : Nat → DialogueRunner → DialogueRunner × List RunnerEvent
  | 0, r => (r, [])
  | fuel + 1, r =>
      if r.stopped = true ∨ r.runtime.isComplete = true then (r, [])
      else
        match rtContinue r.runtime with
        | (none, rt1) => ({ r with runtime := rt1 }, [])
        | (some e, rt1) =>
            let r1 :=
              { r with
                  runtime := rt1
                  state := { r.state with lastEvent := some e } }
            match handleRuntimeEvent e r1 with
            | (r2, true, evs) => (r2, evs)
            | (r2, false, evs) =>
                match runLoop fuel r2 with
                | (r3, evs2) => (r3, evs ++ evs2)

/-- `DialogueRunner.runUntilPause` (src/runner.ts lines 246–262): run the
loop, then, if the runtime reports completion, mark the run complete and
emit `dialogueComplete`. -/
def runUntilPause (fuel : Nat) (r : DialogueRunner) :
    DialogueRunner × List RunnerEvent :=
  match runLoop fuel r with
  | (r1, evs) =>
      if r1.runtime.isComplete = true then
        ({ r1 with
            state := { r1.state with isComplete := true, isRunning := false } },
          evs ++ [RunnerEvent.dialogueComplete])
      else (r1, evs)

/-- `syncVariablesToRuntime` (src/runner.ts lines 351–356): push every durable
variable into the runtime's working set, in insertion order. -/
def syncVariables (storage : List (String × VariableValue))
    (rt : DialogueTreeRuntime) : DialogueTreeRuntime :=
  storage.foldl (fun rt kv => rtSetVariable kv.1 kv.2 rt) rt

/-- `DialogueRunner.start` (src/runner.ts lines 122–137): clear the stop flag,
reinitialize the execution state, sync variables into the runtime, position
the runtime, and run until pause. -/
def runnerStart (nodeName : String) (fuel : Nat) (r : DialogueRunner) :
    DialogueRunner × List RunnerEvent :=
  let r1 :=
    { r with
        stopped := false
        state :=
          { currentNode := some nodeName
            isRunning := true
            isWaitingForOption := false
            isComplete := false
            lastEvent := none } }
  let r2 := { r1 with runtime := syncVariables r1.storage r1.runtime }
  let r3 := { r2 with runtime := rtSetNode nodeName r2.runtime }
  runUntilPause fuel r3

/-- `DialogueRunner.continue` (src/runner.ts lines 142–152).  The two guard
`throw`s leave the runner unchanged. -/
def runnerContinue (fuel : Nat) (r : DialogueRunner) :
    DialogueRunner × List RunnerEvent :=
  if r.state.isWaitingForOption = true then (r, [])
  else if r.state.isComplete = true then (r, [])
  else runUntilPause fuel r

/-- `DialogueRunner.selectOption` (src/runner.ts lines 157–165).  A guard
`throw`, or a `throw` from the runtime, leaves the runner unchanged (the
waiting flag is cleared only after the runtime call returns). -/
def runnerSelectOption (optionId : Nat) (fuel : Nat) (r : DialogueRunner) :
    DialogueRunner × List RunnerEvent :=
  if r.state.isWaitingForOption = false then (r, [])
  else
    match rtSetSelectedOption optionId r.runtime with
    | .error _ => (r, [])
    | .ok rt1 =>
        runUntilPause fuel
          { r with
              runtime := rt1
              state := { r.state with isWaitingForOption := false } }

/-- `DialogueRunner.reset` (src/runner.ts lines 232–242). -/
def runnerReset (r : DialogueRunner) : DialogueRunner :=
  { r with
      stopped := false
      runtime := rtReset r.runtime
      state :=
        { currentNode := none
          isRunning := false
          isWaitingForOption := false
          isComplete := false
          lastEvent := none } }

/-- States of the composed orchestrator reachable from a freshly constructed
runner by the public operations `start`, `continue`, `selectOption`, `stop`
and `reset`, with arbitrary arguments and any fuel. -/
inductive ReachableRunner : DialogueRunner → Prop
  | init (tree : DialogueTree) (lines : List (String × LineEntry))
      (storage : List (String × VariableValue)) :
      ReachableRunner (runnerInit tree lines storage)
  | start (r : DialogueRunner) (nodeName : String) (fuel : Nat) :
      ReachableRunner r → ReachableRunner (runnerStart nodeName fuel r).1
  | cont (r : DialogueRunner) (fuel : Nat) :
      ReachableRunner r → ReachableRunner (runnerContinue fuel r).1
  | select (r : DialogueRunner) (optionId : Nat) (fuel : Nat) :
      ReachableRunner r → ReachableRunner (runnerSelectOption optionId fuel r).1
  | stop (r : DialogueRunner) :
      ReachableRunner r → ReachableRunner (runnerStop r)
  | reset (r : DialogueRunner) :
      ReachableRunner r → ReachableRunner (runnerReset r)

/-- The linear NPC chain from §8 of the spec: node `A` ("Welcome", next `B`)
and node `B` ("Farewell", no next). -/
def demoTree : DialogueTree :=
  { id := "demo"
    title := none
    startNodeId := "A"
    nodes :=
      [("A", DialogueNode.npc "A" none "Welcome" none none (some "B")),
       ("B", DialogueNode.npc "B" none "Farewell" none none none)] }

/-- A tree whose start node is a player-choice node with a single choice. -/
def choiceTree : DialogueTree :=
  { id := "shop"
    title := none
    startNodeId := "P"
    nodes :=
      [("P", DialogueNode.player "P"
          [{ id := "buy", text := "Buy", nextNodeId := some "X",
             lineId := none, enabled := none }]),
       ("X", DialogueNode.npc "X" none "Wares" none none none)] }

/-- Runner state for the C1 counterexample: `continue()` on a fresh runner
(never started) walks to the option set, then `stop()` is called. -/
def c1CexRunner : DialogueRunner :=
  runnerStop (runnerContinue 10 (runnerInit choiceTree [] [])).1

/-- Runtime with one working-set variable, for the reset counterexample. -/
def c2Runtime : DialogueTreeRuntime :=
  rtSetVariable "gold" (VariableValue.str "100") (rtInit demoTree)

/-- The reference runtime run to completion on the linear demo tree. -/
def c3CompleteRuntime : DialogueTreeRuntime :=
  applyRtOps (List.replicate 9 RtOp.step) (rtInit demoTree)

/-- The reference runtime stepped to its pending option set. -/
def pendingOptionState : DialogueTreeRuntime :=
  applyRtOps [RtOp.step, RtOp.step, RtOp.step] (rtInit choiceTree)

/-- A runner whose underlying runtime already reports completion. -/
def w8Runner : DialogueRunner :=
  { runnerInit demoTree [] [] with
      runtime := { rtInit demoTree with isComplete := true } }

/-- A line table resolving `empty` to the empty string. -/
def emptyLineTable : List (String × LineEntry) :=
  [("empty", { id := "empty", text := "", metadata := none })]

/-- A runner over the empty-text line table. -/
def c10Runner : DialogueRunner := runnerInit demoTree emptyLineTable []

/-- A line table whose single line uses the placeholder `\x7b0\x7d` twice. -/
def greetLineTable : List (String × LineEntry) :=
  [("greet", { id := "greet", text := "Hi \x7b0\x7d and \x7b0\x7d", metadata := none })]

/-- A line table whose single line uses the placeholder `\x7b0\x7d` once, for
exercising `$`-patterns in substitutions. -/
def dollarLineTable : List (String × LineEntry) :=
  [("m", { id := "m", text := "Hi \x7b0\x7d", metadata := none })]

/-- A `CommandContext` over a bare variable map, for exercising handlers. -/
def listContext : CommandContext (List (String × VariableValue)) :=
  { getVariable := fun n s => jsMapGet s n
    setVariable := fun n v s => jsMapSet s n v
    stopFn := id
    continueFn := id }

theorem jsMapGet_jsMapSet_self {α : Type} (m : List (String × α)) (k : String)
    (v : α) : jsMapGet (jsMapSet m k v) k = some v := by
  induction m with
  | nil => simp [jsMapSet, jsMapGet]
  | cons hd tl ih =>
      obtain ⟨k1, v1⟩ := hd
      by_cases h : k1 = k <;> simp [jsMapSet, jsMapGet, h, ih]

/-- C2 counterexample: the claim says `reset()` clears the variable working
set, but `DialogueTreeRuntime.reset` never touches `variables`: after a
`setVariable` followed by `reset`, `getVariable` still returns the value and
`getVariableNames` is nonempty. -/
theorem reset_keeps_variables_cex :
    rtGetVariable "gold" (rtReset c2Runtime) = some (VariableValue.str "100") ∧
    rtGetVariableNames (rtReset c2Runtime) = ["gold"] := by
  constructor <;> rfl

/-- C2 (amended): `reset()` reinitializes the position to the tree's start
node and clears the pending-event buffer, the pending next id, the waiting
and completion flags, the visited-node marker set and the cached option set —
but it leaves the variable working set exactly as it was. -/
theorem reset_spec (rt : DialogueTreeRuntime) :
    (rtReset rt).currentNodeId = some rt.tree.startNodeId ∧
    (rtReset rt).waitingForOption = false ∧
    (rtReset rt).isComplete = false ∧
    (rtReset rt).pendingEvents = [] ∧
    (rtReset rt).pendingNextNodeId = none ∧
    (rtReset rt).startedNodes = [] ∧
    (rtReset rt).optionCache = none ∧
    (∀ name, rtGetVariable name (rtReset rt) = rtGetVariable name rt) ∧
    rtGetVariableNames (rtReset rt) = rtGetVariableNames rt :=
  ⟨rfl, rfl, rfl, rfl, rfl, rfl, rfl, fun _ => rfl, rfl⟩

/-- C4: `DialogueRunner.setVariable` writes the durable storage first (the
intermediate state after the storage write leaves the runtime untouched and
already answers `v`), then the runtime working set; afterwards both answer
`v` for `name`.  The command-handler context's `setVariable` is this very
function. -/
theorem setVariable_writes_through (r : DialogueRunner) (name : String)
    (v : VariableValue) :
    jsMapGet (runnerSetVariable name v r).storage name = some v ∧
    rtGetVariable name (runnerSetVariable name v r).runtime = some v ∧
    runnerSetVariable name v r =
      { { r with storage := jsMapSet r.storage name v } with
          runtime :=
            rtSetVariable name v
              ({ r with storage := jsMapSet r.storage name v }).runtime } ∧
    jsMapGet ({ r with storage := jsMapSet r.storage name v }).storage name =
      some v ∧
    ({ r with storage := jsMapSet r.storage name v }).runtime = r.runtime ∧
    runnerContext.setVariable = runnerSetVariable := by
  refine ⟨?_, ?_, rfl, ?_, rfl, rfl⟩
  · exact jsMapGet_jsMapSet_self r.storage name v
  · exact jsMapGet_jsMapSet_self r.runtime.vars name v
  · exact jsMapGet_jsMapSet_self r.storage name v

/-- C5: on the two-node linear chain (A "Welcome" → B "Farewell"), repeated
`continue()` calls yield exactly `node_start A`, `prepare_for_lines [A]`,
`line A`, `node_complete A`, `node_start B`, `prepare_for_lines [B]`,
`line B`, `node_complete B`, `dialogue_complete`, and then no event. -/
theorem linear_chain_event_sequence :
    rtSteps 10 (rtInit demoTree) =
      [some (RuntimeEvent.node_start "A"),
       some (RuntimeEvent.prepare_for_lines ["A"]),
       some (RuntimeEvent.line "A" []),
       some (RuntimeEvent.node_complete "A"),
       some (RuntimeEvent.node_start "B"),
       some (RuntimeEvent.prepare_for_lines ["B"]),
       some (RuntimeEvent.line "B" []),
       some (RuntimeEvent.node_complete "B"),
       some RuntimeEvent.dialogue_complete,
       none] := by decide

theorem firstIndexOfList_first_match (pat : List Char) (s : List Char) :
    ∀ i, firstIndexOfList pat s = some i →
      pat.isPrefixOf (s.drop i) = true ∧
      ∀ j, j < i → pat.isPrefixOf (s.drop j) = false := by
  induction s with
  | nil =>
      intro i h
      by_cases hpre : pat.isPrefixOf ([] : List Char) = true
      · simp only [firstIndexOfList, if_pos hpre, Option.some_inj] at h
        cases h
        exact ⟨hpre, fun j hj => absurd hj (Nat.not_lt_zero j)⟩
      · simp only [firstIndexOfList, if_neg hpre] at h
        exact Option.noConfusion h
  | cons c rest ih =>
      intro i h
      by_cases hpre : pat.isPrefixOf (c :: rest) = true
      · simp only [firstIndexOfList, if_pos hpre, Option.some_inj] at h
        cases h
        exact ⟨hpre, fun j hj => absurd hj (Nat.not_lt_zero j)⟩
      · simp only [firstIndexOfList, if_neg hpre] at h
        obtain ⟨j0, hj0, hji⟩ := Option.map_eq_some'.mp h
        cases hji
        obtain ⟨h1, h2⟩ := ih j0 hj0
        refine ⟨by simpa using h1, ?_⟩
        intro j hj
        cases j with
        | zero =>
            rw [List.drop_zero]
            cases hb : pat.isPrefixOf (c :: rest) with
            | false => rfl
            | true => exact absurd hb hpre
        | succ k =>
            have hk : k < j0 := Nat.lt_of_succ_lt_succ hj
            simpa using h2 k hk

theorem getSubstitution_no_dollar (matched before after : List Char) :
    ∀ sub : List Char, '$' ∉ sub →
      getSubstitution matched before after sub = sub := by
  intro sub
  induction sub with
  | nil => intro _; rfl
  | cons c rest ih =>
      intro h
      rw [List.mem_cons, not_or] at h
      obtain ⟨hne, hrest⟩ := h
      have hcs : ¬c = '$' := fun hcc => hne hcc.symm
      unfold getSubstitution
      rw [if_neg hcs]
      exact congrArg (c :: ·) (ih hrest)

/-- C9 counterexample: the claim says the first placeholder occurrence is
replaced with the corresponding substitution itself, but JS `replace` applies
replacement patterns to string replacements: for the substitution `$&` the
matched placeholder is re-inserted, so the resolved text is not the line with
the substitution spliced in. -/
theorem getLine_dollar_pattern_cex :
    (mapGetLine dollarLineTable "m" ["$&"]).map LocalizedLine.text =
      some "Hi \x7b0\x7d" ∧
    (mapGetLine dollarLineTable "m" ["$&"]).map LocalizedLine.text ≠
      some "Hi $&" := by
  constructor
  · decide
  · decide

/-- C9 (amended): `MapLineProvider.getLine` applies `applySubstitutions`,
which for each substitution replaces only the first occurrence of its
positional placeholder: the index found is a match and no earlier position
matches, the text before and after the match is kept verbatim (so later
occurrences of the same placeholder survive unreplaced), and the inserted
text is `GetSubstitution` of the substitution — the substitution itself
whenever it contains no `$`, while `$$`/`$&`/`$`-backquote/`$'` sequences
are expanded as JS replacement patterns. -/
theorem getLine_first_occurrence_spec :
    (∀ (lines : List (String × LineEntry)) (lineId : String)
        (entry : LineEntry) (subs : List String),
      jsMapGet lines lineId = some entry →
        mapGetLine lines lineId subs =
          some
            { text := applySubstitutions entry.text subs
              lineId := lineId
              substitutions := subs
              metadata := entry.metadata }) ∧
    (∀ (pat sub s : List Char) (i : Nat), firstIndexOfList pat s = some i →
      pat.isPrefixOf (s.drop i) = true ∧
      (∀ j, j < i → pat.isPrefixOf (s.drop j) = false) ∧
      listReplaceFirst pat sub s =
        s.take i ++
          getSubstitution pat (s.take i) (s.drop (i + pat.length)) sub ++
          s.drop (i + pat.length)) ∧
    (∀ (pat sub s : List Char), firstIndexOfList pat s = none →
      listReplaceFirst pat sub s = s) ∧
    (∀ (matched before after sub : List Char), '$' ∉ sub →
      getSubstitution matched before after sub = sub) ∧
    applySubstitutions "Hi \x7b0\x7d and \x7b0\x7d" ["Ann"] =
      "Hi Ann and \x7b0\x7d" ∧
    applySubstitutions "Hi \x7b0\x7d" ["$&"] = "Hi \x7b0\x7d" := by
  refine ⟨?_, ?_, ?_, getSubstitution_no_dollar, by decide, by decide⟩
  · intro lines lineId entry subs h
    simp [mapGetLine, h]
  · intro pat sub s i h
    obtain ⟨h1, h2⟩ := firstIndexOfList_first_match pat s i h
    exact ⟨h1, h2, by simp only [listReplaceFirst, h]⟩
  · intro pat sub s h
    simp only [listReplaceFirst, h]

/-- Witness for the amended C9: the double-placeholder line resolves through
`getLine` with the substitutions applied, and a dollar-free substitution is
inserted verbatim. -/
theorem getLine_first_occurrence_spec_witness :
    mapGetLine greetLineTable "greet" ["Ann"] =
      some
        { text := applySubstitutions "Hi \x7b0\x7d and \x7b0\x7d" ["Ann"]
          lineId := "greet"
          substitutions := ["Ann"]
          metadata := none } ∧
    getSubstitution "m".data "b".data "a".data "Ann".data = "Ann".data :=
  ⟨getLine_first_occurrence_spec.1 greetLineTable "greet"
      { id := "greet", text := "Hi \x7b0\x7d and \x7b0\x7d", metadata := none }
      ["Ann"] (by decide),
    getLine_first_occurrence_spec.2.2.2.1 "m".data "b".data "a".data
      "Ann".data (by decide)⟩

/-- C10: the orchestrator's line handler substitutes the
`[Missing: <lineId>]` placeholder not only when the provider returns no line
for the id, but also when the provider resolves the line to the empty string
(the JS fallback is `localizedLine?.text || placeholder`, and the empty
string is falsy). -/
theorem line_placeholder_on_missing_or_empty (r : DialogueRunner)
    (lineId : String) (subs : List String) :
    (mapGetLine r.lines lineId subs = none →
      (handleLine r lineId subs).2.2 =
        [RunnerEvent.line lineId (missingText lineId) subs none]) ∧
    (∀ l, mapGetLine r.lines lineId subs = some l → l.text = "" →
      (handleLine r lineId subs).2.2 =
        [RunnerEvent.line lineId (missingText lineId) subs l.metadata]) ∧
    (∀ l, mapGetLine r.lines lineId subs = some l → l.text ≠ "" →
      (handleLine r lineId subs).2.2 =
        [RunnerEvent.line lineId l.text subs l.metadata]) := by
  refine ⟨?_, ?_, ?_⟩
  · intro h; simp [handleLine, h, lineTextOrMissing]
  · intro l h ht; simp [handleLine, h, lineTextOrMissing, jsOrString, ht]
  · intro l h ht; simp [handleLine, h, lineTextOrMissing, jsOrString, ht]

/-- Witness for C10: a line that resolves to the empty string is emitted as
the missing-line placeholder. -/
theorem line_placeholder_on_missing_or_empty_witness :
    (handleLine c10Runner "empty" []).2.2 =
      [RunnerEvent.line "empty" (missingText "empty") [] none] :=
  (line_placeholder_on_missing_or_empty c10Runner "empty" []).2.1
    { text := "", lineId := "empty", substitutions := [], metadata := none }
    (by decide) rfl

theorem rtSetSelectedOption_ok_fields (i : Nat) (s s' : DialogueTreeRuntime)
    (h : rtSetSelectedOption i s = Except.ok s') :
    s'.tree = s.tree ∧ s'.currentNodeId = s.currentNodeId ∧
    s'.isComplete = s.isComplete ∧ s'.startedNodes = s.startedNodes ∧
    s'.vars = s.vars ∧ s'.waitingForOption = false ∧ s'.optionCache = none ∧
    ∃ cache choice, s.optionCache = some cache ∧
      cache.choices[i]? = some choice ∧
      s'.pendingNextNodeId = choice.nextNodeId ∧
      s'.pendingEvents =
        s.pendingEvents ++ [RuntimeEvent.node_complete cache.nodeId] := by
  unfold rtSetSelectedOption at h
  cases hc : s.optionCache with
  | none => rw [hc] at h; exact Except.noConfusion h
  | some cache =>
      rw [hc] at h
      dsimp only at h
      by_cases hw : s.waitingForOption = false
      · rw [if_pos hw] at h; exact Except.noConfusion h
      · rw [if_neg hw] at h
        cases hg : cache.choices[i]? with
        | none => rw [hg] at h; exact Except.noConfusion h
        | some choice =>
            rw [hg] at h
            cases h
            exact ⟨rfl, rfl, rfl, rfl, rfl, rfl, rfl, cache, choice, rfl, hg,
              rfl, rfl⟩

theorem rtSetSelectedOption_error_iff (i : Nat) (s : DialogueTreeRuntime) :
    (∃ msg, rtSetSelectedOption i s = Except.error msg) ↔
      ¬(s.waitingForOption = true ∧
        ∃ cache, s.optionCache = some cache ∧ i < cache.choices.length) := by
  unfold rtSetSelectedOption
  cases hc : s.optionCache with
  | none => simp
  | some cache =>
      dsimp only
      by_cases hw : s.waitingForOption = false
      · simp [if_pos hw, hw]
      · rw [if_neg hw]
        have hw' : s.waitingForOption = true := by
          cases hv : s.waitingForOption
          · exact absurd hv hw
          · rfl
        cases hg : cache.choices[i]? with
        | none =>
            have hlen : cache.choices.length ≤ i := List.getElem?_eq_none_iff.mp hg
            simp [hw', hlen, Nat.not_lt.mpr hlen]
        | some choice =>
            obtain ⟨hlt, -⟩ := List.getElem?_eq_some.mp hg
            simp [hw', hlt]

theorem rtSelectTotal_complete (i : Nat) (s : DialogueTreeRuntime) :
    (rtSelectTotal i s).isComplete = s.isComplete := by
  unfold rtSelectTotal
  cases h : rtSetSelectedOption i s with
  | error e => rfl
  | ok s' => exact (rtSetSelectedOption_ok_fields i s s' h).2.2.1

theorem rtContinue_complete_none (s : DialogueTreeRuntime)
    (h : s.isComplete = true) : rtContinue s = (none, s) := by
  simp [rtContinue, h]

theorem applyRtOp_complete (op : RtOp) (s : DialogueTreeRuntime)
    (h : s.isComplete = true) : (applyRtOp op s).isComplete = true := by
  cases op with
  | step => rw [applyRtOp, rtContinue_complete_none s h]; exact h
  | setNode n => exact h
  | selectOption i => rw [applyRtOp, rtSelectTotal_complete]; exact h

theorem applyRtOps_complete (ops : List RtOp) (s : DialogueTreeRuntime)
    (h : s.isComplete = true) : (applyRtOps ops s).isComplete = true := by
  induction ops generalizing s with
  | nil => exact h
  | cons op ops ih => exact ih (applyRtOp op s) (applyRtOp_complete op s h)

theorem rtContinue_dc_sets_complete (s s2 : DialogueTreeRuntime)
    (h : rtContinue s = (some RuntimeEvent.dialogue_complete, s2)) :
    s2.isComplete = true := by
  unfold rtContinue at h
  split at h
  · exact Prod.noConfusion h fun h1 _ => Option.noConfusion h1
  · dsimp only at h
    split at h
    · exact Prod.noConfusion h fun h1 _ => Option.noConfusion h1
    · injection h with h1 h2
      injection h1 with h1
      subst h1
      rw [← h2]
      rfl

/-- C3: `dialogue_complete` is produced at most once per run.  If a
`continue()` call returns it, the runtime is complete; and once complete, any
sequence of further `continue()`/`setNode()`/`setSelectedOption()` calls
(anything short of `reset`/`loadProgram`) leaves the runtime complete and
every further `continue()` returns no event. -/
theorem dialogue_complete_once (s : DialogueTreeRuntime) :
    ((rtContinue s).1 = some RuntimeEvent.dialogue_complete →
      (rtContinue s).2.isComplete = true) ∧
    (s.isComplete = true → ∀ ops : List RtOp,
      (applyRtOps ops s).isComplete = true ∧
      (rtContinue (applyRtOps ops s)).1 = none) := by
  constructor
  · intro h
    rcases hr : rtContinue s with ⟨e1, s2⟩
    rw [hr] at h
    dsimp only at h
    subst h
    exact rtContinue_dc_sets_complete s s2 hr
  · intro h ops
    have hc := applyRtOps_complete ops s h
    exact ⟨hc, by rw [rtContinue_complete_none _ hc]⟩

/-- Witness for C3: a runtime actually run to completion on the demo tree
stays complete across `setNode`/`continue`, and `continue()` yields nothing. -/
theorem dialogue_complete_once_witness :
    (applyRtOps [RtOp.setNode "A", RtOp.step] c3CompleteRuntime).isComplete =
      true ∧
    (rtContinue (applyRtOps [RtOp.setNode "A", RtOp.step]
      c3CompleteRuntime)).1 = none :=
  (dialogue_complete_once c3CompleteRuntime).2 (by decide)
    [RtOp.setNode "A", RtOp.step]

/-- C6: `setSelectedOption(i)` raises exactly when no option set is pending
(no cached set or the waiting flag is down) or `i` is not the index of a
choice in the cached set; a raise leaves the state unchanged; on success the
waiting flag is cleared, the chosen choice's destination becomes the pending
next position, a `node_complete` event for the choice node is queued, and
nothing else changes. -/
theorem selectOption_spec (s : DialogueTreeRuntime) (i : Nat) :
    ((∃ msg, rtSetSelectedOption i s = Except.error msg) ↔
      ¬(s.waitingForOption = true ∧
        ∃ cache, s.optionCache = some cache ∧ i < cache.choices.length)) ∧
    ((∃ msg, rtSetSelectedOption i s = Except.error msg) →
      rtSelectTotal i s = s) ∧
    (∀ s2, rtSetSelectedOption i s = Except.ok s2 →
      s2.waitingForOption = false ∧ s2.optionCache = none ∧
      s2.tree = s.tree ∧ s2.currentNodeId = s.currentNodeId ∧
      s2.isComplete = s.isComplete ∧ s2.startedNodes = s.startedNodes ∧
      s2.vars = s.vars ∧
      ∃ cache choice, s.optionCache = some cache ∧
        cache.choices[i]? = some choice ∧
        s2.pendingNextNodeId = choice.nextNodeId ∧
        s2.pendingEvents =
          s.pendingEvents ++ [RuntimeEvent.node_complete cache.nodeId]) := by
  refine ⟨rtSetSelectedOption_error_iff i s, ?_, ?_⟩
  · rintro ⟨msg, hmsg⟩
    unfold rtSelectTotal
    rw [hmsg]
  · intro s2 h
    obtain ⟨h1, h2, h3, h4, h5, h6, h7, cache, choice, hc, hg, hp, hq⟩ :=
      rtSetSelectedOption_ok_fields i s s2 h
    exact ⟨h6, h7, h1, h2, h3, h4, h5, cache, choice, hc, hg, hp, hq⟩

/-- Witness for C6: on the runtime paused at its option set, selecting index
0 succeeds with the specified effects. -/
theorem selectOption_spec_witness :
    (rtSelectTotal 0 pendingOptionState).waitingForOption = false ∧
    (rtSelectTotal 0 pendingOptionState).optionCache = none ∧
    (rtSelectTotal 0 pendingOptionState).tree = pendingOptionState.tree ∧
    (rtSelectTotal 0 pendingOptionState).currentNodeId =
      pendingOptionState.currentNodeId ∧
    (rtSelectTotal 0 pendingOptionState).isComplete =
      pendingOptionState.isComplete ∧
    (rtSelectTotal 0 pendingOptionState).startedNodes =
      pendingOptionState.startedNodes ∧
    (rtSelectTotal 0 pendingOptionState).vars = pendingOptionState.vars ∧
    ∃ cache choice, pendingOptionState.optionCache = some cache ∧
      cache.choices[0]? = some choice ∧
      (rtSelectTotal 0 pendingOptionState).pendingNextNodeId =
        choice.nextNodeId ∧
      (rtSelectTotal 0 pendingOptionState).pendingEvents =
        pendingOptionState.pendingEvents ++
          [RuntimeEvent.node_complete cache.nodeId] :=
  (selectOption_spec pendingOptionState 0).2.2
    (rtSelectTotal 0 pendingOptionState) (by rfl)

/-- C7: with at least a name and a value argument, the built-in `set` handler
writes `parseValue` of the space-joined value arguments under the name with
one leading `$` stripped, through the context's `setVariable` (then calls the
no-op `continue`).  `parseValue` recognizes `true`/`false` as booleans,
numeric strings (JS `parseFloat`) as numbers, strips matching quotes, and
otherwise keeps the bare string — with the quote check first, as in the
source. -/
theorem setCommand_spec {σ : Type} (ctx : CommandContext σ) (st : σ)
    (a b : String) (rest : List String) :
    setHandler ctx (a :: b :: rest) st =
      ctx.continueFn
        (ctx.setVariable (stripDollar a)
          (parseValue (String.intercalate " " (b :: rest))) st) ∧
    parseValue "true" = VariableValue.boolean true ∧
    parseValue "false" = VariableValue.boolean false ∧
    (∀ v, isQuotedValue v = true →
      parseValue v = VariableValue.str (stripQuotes v)) ∧
    (∀ v q, isQuotedValue v = false → v ≠ "true" → v ≠ "false" →
      jsParseFloat v = some q → parseValue v = VariableValue.num q) ∧
    (∀ v, isQuotedValue v = false → v ≠ "true" → v ≠ "false" →
      jsParseFloat v = none → parseValue v = VariableValue.str v) ∧
    (∀ name, stripDollar ("$" ++ name) = name) ∧
    stripDollar "plain" = "plain" := by
  refine ⟨by simp [setHandler], by decide, by decide, ?_, ?_, ?_, ?_,
    by decide⟩
  · intro v hq
    simp [parseValue, hq]
  · intro v q h1 h2 h3 h4
    simp [parseValue, h1, h2, h3, h4]
  · intro v h1 h2 h3 h4
    simp [parseValue, h1, h2, h3, h4]
  · intro name
    simp only [stripDollar, jsStartsWith, String.data_append]
    norm_num [List.isPrefixOf]

/-- Witness for C7: dispatching the full command line
`set $quest_dragon 'complete'` through the default dispatcher against a bare
variable map stores the unquoted string, and `parseValue` strips quotes. -/
theorem setCommand_spec_witness :
    setHandler listContext ["$flag", "true"] [] =
      listContext.continueFn
        (listContext.setVariable (stripDollar "$flag")
          (parseValue (String.intercalate " " ["true"])) []) ∧
    parseValue "\"hi\"" = VariableValue.str (stripQuotes "\"hi\"") :=
  ⟨(setCommand_spec listContext [] "$flag" "true" []).1,
    (setCommand_spec listContext [] "x" "y" []).2.2.2.1 "\"hi\"" (by decide)⟩

theorem defaultDispatch_runner_inv (text : String) (r : DialogueRunner)
    (h : r.state.isComplete = true → r.state.isRunning = false) :
    (defaultDispatch runnerContext text r).1.state.isComplete = true →
      (defaultDispatch runnerContext text r).1.state.isRunning = false := by
  unfold defaultDispatch
  cases hp : parseCommand text with
  | none => exact h
  | some p =>
      obtain ⟨cmd, args⟩ := p
      dsimp only
      by_cases h1 : cmd.toLower = "wait"
      · rw [if_pos h1]; exact h
      · rw [if_neg h1]
        by_cases h2 : cmd.toLower = "stop"
        · rw [if_pos h2]; intro _; rfl
        · rw [if_neg h2]
          by_cases h3 : cmd.toLower = "set"
          · rw [if_pos h3]
            cases args with
            | nil => exact h
            | cons varArg rest =>
                by_cases h4 : rest.isEmpty = true
                · simp only [setHandler, if_pos h4]; exact h
                · simp only [setHandler, if_neg h4]; exact h
          · rw [if_neg h3]; exact h

theorem handleRuntimeEvent_inv (e : RuntimeEvent) (r : DialogueRunner)
    (h : r.state.isComplete = true → r.state.isRunning = false) :
    (handleRuntimeEvent e r).1.state.isComplete = true →
      (handleRuntimeEvent e r).1.state.isRunning = false := by
  cases e with
  | line lid subs => exact h
  | options opts => exact h
  | command t =>
      have hd := defaultDispatch_runner_inv t r h
      rcases he : defaultDispatch runnerContext t r with ⟨r1, handled⟩
      rw [he] at hd
      simp only [handleRuntimeEvent, handleCommand, he]
      exact hd
  | node_start n => exact h
  | node_complete n => exact h
  | dialogue_complete => exact h
  | prepare_for_lines l => exact h

theorem runLoop_inv (fuel : Nat) (r : DialogueRunner)
    (h : r.state.isComplete = true → r.state.isRunning = false) :
    (runLoop fuel r).1.state.isComplete = true →
      (runLoop fuel r).1.state.isRunning = false := by
  induction fuel generalizing r with
  | zero => exact h
  | succ fuel ih =>
      by_cases hg : r.stopped = true ∨ r.runtime.isComplete = true
      · simp only [runLoop, if_pos hg]; exact h
      · simp only [runLoop, if_neg hg]
        rcases hc : rtContinue r.runtime with ⟨oe, rt1⟩
        cases oe with
        | none => exact h
        | some e =>
            dsimp only
            have h1 :
                ({ r with
                    runtime := rt1
                    state := { r.state with lastEvent := some e }}).state.isComplete =
                  true →
                ({ r with
                    runtime := rt1
                    state := { r.state with lastEvent := some e }}).state.isRunning =
                  false := fun hx => h hx
            have h2 := handleRuntimeEvent_inv e _ h1
            rcases hh : handleRuntimeEvent e
                { r with
                    runtime := rt1
                    state := { r.state with lastEvent := some e }} with
              ⟨r2, pause, evs⟩
            rw [hh] at h2
            cases pause with
            | true => exact h2
            | false =>
                dsimp only
                exact ih r2 h2

theorem runUntilPause_inv (fuel : Nat) (r : DialogueRunner)
    (h : r.state.isComplete = true → r.state.isRunning = false) :
    (runUntilPause fuel r).1.state.isComplete = true →
      (runUntilPause fuel r).1.state.isRunning = false := by
  unfold runUntilPause
  have h1 := runLoop_inv fuel r h
  rcases hl : runLoop fuel r with ⟨r1, evs⟩
  rw [hl] at h1
  by_cases hc : r1.runtime.isComplete = true
  · simp only [if_pos hc]; intro _; trivial
  · simp only [if_neg hc]; exact h1

/-- C1 counterexample: the claimed Execution State invariants fail on a
reachable state.  Calling `continue()` on a freshly constructed (never
started) runner walks the graph to an option set, setting
`isWaitingForOption` with `isRunning` still false; then `stop()` sets
`isComplete` without clearing the waiting flag, so `isWaitingForOption` and
`isComplete` are simultaneously true. -/
theorem runner_invariant_cex :
    ReachableRunner c1CexRunner ∧
    c1CexRunner.state.isWaitingForOption = true ∧
    c1CexRunner.state.isComplete = true ∧
    c1CexRunner.state.isRunning = false := by
  refine ⟨?_, by decide, by decide, by decide⟩
  exact ReachableRunner.stop _
    (ReachableRunner.cont _ 10 (ReachableRunner.init choiceTree [] []))

/-- C1 (amended): over every reachable state of the orchestrator the surviving
invariant is `isComplete = true → isRunning = false`.  The other two claimed
invariants fail: `stop()` while awaiting an option leaves
`isWaitingForOption` and `isComplete` both true, and `continue()` without a
prior `start()` can reach `isWaitingForOption` with `isRunning` false. -/
theorem runner_complete_not_running (r : DialogueRunner)
    (hr : ReachableRunner r) :
    r.state.isComplete = true → r.state.isRunning = false := by
  induction hr with
  | init tree lines storage => intro hc; simp [runnerInit] at hc
  | start r1 nodeName fuel hr ih =>
      unfold runnerStart
      dsimp only
      exact runUntilPause_inv fuel _ (by intro hc; simp at hc)
  | cont r1 fuel hr ih =>
      unfold runnerContinue
      by_cases h1 : r1.state.isWaitingForOption = true
      · rw [if_pos h1]; exact ih
      · rw [if_neg h1]
        by_cases h2 : r1.state.isComplete = true
        · rw [if_pos h2]; exact ih
        · rw [if_neg h2]; exact runUntilPause_inv fuel r1 ih
  | select r1 i fuel hr ih =>
      unfold runnerSelectOption
      by_cases h1 : r1.state.isWaitingForOption = false
      · rw [if_pos h1]; exact ih
      · rw [if_neg h1]
        cases hs : rtSetSelectedOption i r1.runtime with
        | error e => exact ih
        | ok rt1 => exact runUntilPause_inv fuel _ fun hc => ih hc
  | stop r1 hr ih => intro _; rfl
  | reset r1 hr ih => intro hc; simp [runnerReset] at hc

/-- Witness for the amended C1: a stopped runner is reachable, is complete,
and indeed not running. -/
theorem runner_complete_not_running_witness :
    ReachableRunner (runnerStop (runnerInit demoTree [] [])) ∧
    (runnerStop (runnerInit demoTree [] [])).state.isRunning = false :=
  ⟨ReachableRunner.stop _ (ReachableRunner.init demoTree [] []),
    runner_complete_not_running _
      (ReachableRunner.stop _ (ReachableRunner.init demoTree [] [])) rfl⟩

theorem runLoop_of_complete (fuel : Nat) (r : DialogueRunner)
    (h : r.runtime.isComplete = true) : runLoop fuel r = (r, []) := by
  cases fuel with
  | zero => rfl
  | succ f => simp [runLoop, h]

theorem syncVariables_isComplete (storage : List (String × VariableValue))
    (rt : DialogueTreeRuntime) :
    (syncVariables storage rt).isComplete = rt.isComplete := by
  induction storage generalizing rt with
  | nil => rfl
  | cons kv tl ih =>
      simp only [syncVariables, List.foldl_cons]
      exact ih (rtSetVariable kv.1 kv.2 rt)

/-- C8: when the underlying runtime already reports completion, `start()`
consumes no runtime event: the runtime is only re-synced and repositioned
(`setNode` does not clear the completion flag), the loop exits before its
first step, the state is immediately marked complete and not running, and a
single `dialogueComplete` event is emitted. -/
theorem start_on_completed_runtime (r : DialogueRunner) (nodeName : String)
    (fuel : Nat) (h : r.runtime.isComplete = true) :
    (runnerStart nodeName fuel r).2 = [RunnerEvent.dialogueComplete] ∧
    (runnerStart nodeName fuel r).1.state.isComplete = true ∧
    (runnerStart nodeName fuel r).1.state.isRunning = false ∧
    (runnerStart nodeName fuel r).1.state.currentNode = some nodeName ∧
    (runnerStart nodeName fuel r).1.state.isWaitingForOption = false ∧
    (runnerStart nodeName fuel r).1.state.lastEvent = none ∧
    (runnerStart nodeName fuel r).1.runtime =
      rtSetNode nodeName (syncVariables r.storage r.runtime) := by
  have hset :
      (rtSetNode nodeName (syncVariables r.storage r.runtime)).isComplete =
        true := by
    show (syncVariables r.storage r.runtime).isComplete = true
    rw [syncVariables_isComplete]; exact h
  unfold runnerStart
  dsimp only
  unfold runUntilPause
  rw [runLoop_of_complete fuel _ hset]
  dsimp only
  rw [if_pos hset]
  exact ⟨rfl, rfl, rfl, rfl, rfl, rfl, rfl⟩

/-- Witness for C8: starting `w8Runner` (whose runtime is already complete)
immediately completes with a single `dialogueComplete` event. -/
theorem start_on_completed_runtime_witness :
    (runnerStart "X" 5 w8Runner).2 = [RunnerEvent.dialogueComplete] ∧
    (runnerStart "X" 5 w8Runner).1.state.isComplete = true ∧
    (runnerStart "X" 5 w8Runner).1.state.isRunning = false ∧
    (runnerStart "X" 5 w8Runner).1.state.currentNode = some "X" ∧
    (runnerStart "X" 5 w8Runner).1.state.isWaitingForOption = false ∧
    (runnerStart "X" 5 w8Runner).1.state.lastEvent = none ∧
    (runnerStart "X" 5 w8Runner).1.runtime =
      rtSetNode "X" (syncVariables w8Runner.storage w8Runner.runtime) :=
  start_on_completed_runtime w8Runner "X" 5 rfl
